import Mathlib

/-!
Verification of the libcatid Sphynx transport/handshake core against its
natural-language specification.

The development shallowly embeds the relevant C++ code:

* machine integers are modelled as `ℕ`/`ℤ` with explicit wrap-around
  (`% 2^32`) exactly where the C++ performs unsigned arithmetic or an
  integral conversion; signed 64-bit intermediate arithmetic, whose
  overflow would be undefined behaviour in C++, is modelled exactly on `ℤ`;
* the C++ `double` state `_ts_B0` and the `double` intermediate expressions
  of `UpdateTimeSynch` are modelled on `ℚ`; on every input considered in the
  theorems below the computed values are integers that IEEE-754 doubles
  represent exactly, so the model agrees with the machine arithmetic;
* pointer-based intrusive linked lists are modelled by a heap function
  `ℕ → node` together with `Option ℕ` head/tail pointers (`none` = null);
* external collaborators (key agreement, AEAD, buffer allocation, socket
  posting) are opaque parameters, following the contracts of spec section 6.

Definitions are placed first, all theorems afterwards.
-/

/-! ### Connection-table probe sequence (SphynxTransport.hpp, SphynxServer.hpp) -/

/-- Source constant `HASH_TABLE_SIZE` (SphynxTransport.hpp line 169). -/
def HASH_TABLE_SIZE : ℕ := 32768

/-- Source constant `COLLISION_MULTIPLIER = 71*5861 * 4 + 1` (SphynxTransport.hpp line 176). -/
def COLLISION_MULTIPLIER : ℕ := 71 * 5861 * 4 + 1

/-- Source constant `COLLISION_INCREMENTER = 1013904223` (SphynxTransport.hpp line 177). -/
def COLLISION_INCREMENTER : ℕ := 1013904223

/-- Modelled from the spec: the body of `Map::next_collision_key` is declared
`CAT_INLINE` in SphynxServer.hpp (lines 97-101) but its definition is in a
source file that is not part of this repository snapshot.  Spec section 4.5:
`next = (COLLISION_MULTIPLIER * key + COLLISION_INCREMENTER) mod TABLE_SIZE`.
The C++ computes the product/sum in `u32` arithmetic; since `2^15` divides
`2^32`, reducing modulo `2^32` first and then modulo `HASH_TABLE_SIZE` gives
the same result as reducing directly (see `next_collision_key_u32`). -/
def next_collision_key (key : ℕ) : ℕ :=
  (COLLISION_MULTIPLIER * key + COLLISION_INCREMENTER) % HASH_TABLE_SIZE

/-- The affine probe step viewed in `ZMod 32768` (proof-side companion of
`next_collision_key`). -/
def collisionStepZ (x : ZMod 32768) : ZMod 32768 :=
  (COLLISION_MULTIPLIER : ZMod 32768) * x + (COLLISION_INCREMENTER : ZMod 32768)

/-- Geometric sum `∑_{i<t} b^i` in `ZMod 32768`, used to analyse the probe
step's iterates. -/
def geomSumB (b : ZMod 32768) (t : ℕ) : ZMod 32768 :=
  ∑ i ∈ Finset.range t, b ^ i

/-! ### Machine-integer helpers -/

/-- Unsigned 32-bit subtraction `a - b` (wrap-around modulo `2^32`), the
arithmetic the client performs on all `u32` timestamps. -/
def u32sub (a b : ℕ) : ℕ := (a % 2 ^ 32 + 2 ^ 32 - b % 2 ^ 32) % 2 ^ 32

/-- Conversion of an integer to `u32` (C cast `(u32)x`), as a value in
`[0, 2^32)`. -/
def toU32 (x : ℤ) : ℤ := x % 2 ^ 32

/-- Reinterpretation of an integer as a signed 32-bit value (C cast `(s32)x`
and narrowing assignments to `s32`). -/
def toS32 (x : ℤ) : ℤ := (x + 2 ^ 31) % 2 ^ 32 - 2 ^ 31

/-- Truncation of a rational toward zero (C cast from `double` to a signed
integer type). -/
def truncQ (q : ℚ) : ℤ := if 0 ≤ q then ⌊q⌋ else ⌈q⌉

/-- Little-endian 16-bit read at offset `i` of a byte sequence (`getLE` of a
`u16` on the wire). -/
def getLE16 (data : List ℕ) (i : ℕ) : ℕ := data.getD i 0 + 256 * data.getD (i + 1) 0

/-- Little-endian 32-bit read at offset `i` of a byte sequence. -/
def getLE32 (data : List ℕ) (i : ℕ) : ℕ :=
  data.getD i 0 + 256 * data.getD (i + 1) 0 + 65536 * data.getD (i + 2) 0 +
    16777216 * data.getD (i + 3) 0

/-! ### Handshake constants (SphynxTransport.hpp and spec section 6) -/

/-- Source constant (SphynxTransport.hpp line 165). -/
def PUBLIC_KEY_BYTES : ℕ := 64

/-- Source constant (SphynxTransport.hpp line 167). -/
def CHALLENGE_BYTES : ℕ := 64

/-- Source constant (SphynxTransport.hpp line 168): `PUBLIC_KEY_BYTES * 2`. -/
def ANSWER_BYTES : ℕ := 128

/-- Handshake opcode `S2C_COOKIE` (position 1 of `enum HandshakeType`,
SphynxTransport.hpp lines 181-188). -/
def S2C_COOKIE : ℕ := 1

/-- Handshake opcode `S2C_ANSWER` (position 3 of `enum HandshakeType`). -/
def S2C_ANSWER : ℕ := 3

/-- Handshake opcode `S2C_ERROR` (position 4 of `enum HandshakeType`). -/
def S2C_ERROR : ℕ := 4

/-- Handshake error `ERR_SERVER_FULL` (the sole member, hence value 0, of
`enum HandshakeError` in SphynxTransport.hpp lines 191-194). -/
def ERR_SERVER_FULL : ℕ := 0

/-- Modelled from the spec: the `*_LEN` packet-size constants live in the
missing SphynxClient.hpp; spec section 6 gives `S2C_COOKIE = 5` bytes. -/
def S2C_COOKIE_LEN : ℕ := 5

/-- Modelled from the spec: `C2S_CHALLENGE = 1 + 4 + 4 + CHALLENGE_BYTES = 73`
bytes (spec section 6). -/
def C2S_CHALLENGE_LEN : ℕ := 1 + 4 + 4 + CHALLENGE_BYTES

/-- Modelled from the spec: `S2C_ANSWER = 1 + 2 + ANSWER_BYTES = 131` bytes
(spec section 6). -/
def S2C_ANSWER_LEN : ℕ := 1 + 2 + ANSWER_BYTES

/-- Modelled from the spec: `S2C_ERROR = 1 + 1 = 2` bytes (spec section 6). -/
def S2C_ERROR_LEN : ℕ := 2

/-! ### Client handshake receive path (`Client::OnRead`, not-connected case,
SphynxClient_DriftCalculations.cpp lines 210-324) -/

/-- Upcalls and posts the not-yet-connected client can make while handling a
handshake packet. -/
inductive HsEvent
  | onConnect
  | connectFail (err : ℕ)
  | postedChallenge (cookie : ℕ)
deriving DecidableEq

/-- Abstract client-side handshake state: `_connected`, the current
`_server_addr` port, the AEAD key derived by `KeyEncryption` (if any), and
the recorded upcalls/posts. -/
structure HsClientState where
  connected : Bool
  serverPort : ℕ
  aeadKey : Option ℕ
  events : List HsEvent
deriving DecidableEq

/-- Opaque collaborators and environment outcomes of the handshake receive
path.  `processAnswer` and `keyEncryption` follow the key-agreement contracts
of spec section 6 (`none` = validation/derivation failure); `errNumClientErrors`
is the value of the enum constant `ERR_NUM_CLIENT_ERRORS`, which the enum in
SphynxTransport.hpp does not define (the enum is unfinished); `allocOk`/`postOk`
are the outcomes of `AsyncBuffer::Acquire` and `Post`.  The error codes
`ERR_CLIENT_OUT_OF_MEMORY` / `ERR_CLIENT_BROKEN_PIPE` are likewise enum values
missing from the snapshot and are carried as parameters. -/
structure HsConfig where
  processAnswer : List ℕ → Option ℕ
  keyEncryption : ℕ → Option ℕ
  errNumClientErrors : ℕ
  errOutOfMemory : ℕ
  errBrokenPipe : ℕ
  allocOk : Bool
  postOk : Bool

/-- `Client::OnRead` for a packet from the server while `!_connected`
(SphynxClient_DriftCalculations.cpp lines 234-324).  The `ConnectFail`
invocations are recorded as events; `data` is the datagram byte sequence. -/
def onReadNotConnected (cfg : HsConfig) (st : HsClientState) (data : List ℕ) : HsClientState :=
  if data.length = S2C_COOKIE_LEN ∧ data.getD 0 0 = S2C_COOKIE then
    if cfg.allocOk = false then
      { st with events := st.events ++ [HsEvent.connectFail cfg.errOutOfMemory] }
    else if cfg.postOk = false then
      { st with events := st.events ++ [HsEvent.connectFail cfg.errBrokenPipe] }
    else
      { st with events := st.events ++ [HsEvent.postedChallenge (getLE32 data 1)] }
  else if data.length = S2C_ANSWER_LEN ∧ data.getD 0 0 = S2C_ANSWER then
    let server_session_port := getLE16 data 1
    if st.serverPort < server_session_port then
      match cfg.processAnswer (data.drop 3) with
      | some key_hash =>
        match cfg.keyEncryption key_hash with
        | some key =>
          { st with
            connected := true
            serverPort := server_session_port
            aeadKey := some key
            events := st.events ++ [HsEvent.onConnect] }
        | none => st
      | none => st
    else st
  else if data.length = S2C_ERROR_LEN ∧ data.getD 0 0 = S2C_ERROR then
    let err := data.getD 1 0
    if err ≤ cfg.errNumClientErrors then st
    else { st with events := st.events ++ [HsEvent.connectFail err] }
  else st

/-! ### Client clock synchronization (`Client::UpdateTimeSynch`,
SphynxClient_DriftCalculations.cpp lines 776-940) -/

/-- Source constant `Transport::TIMEOUT_DISCONNECT` (SphynxTransport.hpp
line 232). -/
def TIMEOUT_DISCONNECT : ℕ := 15000

/-- Modelled from the spec: `MAX_TS_SAMPLES` lives in the missing
SphynxClient.hpp; spec section 3 fixes the sample ring at 64 entries. -/
def MAX_TS_SAMPLES : ℕ := 64

/-- Modelled from the spec: `MIN_TS_SAMPLES` lives in the missing
SphynxClient.hpp; spec section 4.9 gives the value 3. -/
def MIN_TS_SAMPLES : ℕ := 3

/-- Modelled from the spec: `MIN_DRIFT_SAMPLES` lives in the missing
SphynxClient.hpp; the source comment (lines 772-774) and spec section 4.9
require at least 4 samples before drift calculations are enabled. -/
def MIN_DRIFT_SAMPLES : ℕ := 4

/-- Modelled from the spec: `TIME_SYNC_INTERVAL` lives in the missing
SphynxClient.hpp; spec section 4.9 gives roughly 20 seconds. -/
def TIME_SYNC_INTERVAL : ℕ := 20000

/-- One entry of `_ts_samples`: `(delta, when, rtt)` with `delta : s32` and
`when`, `rtt : u32`. -/
structure TimesPingSample where
  delta : ℤ
  whenv : ℕ
  rtt : ℕ
deriving DecidableEq

/-- The clock-synchronization portion of the client state:
`_ts_samples` (as a total function, mirroring a C array), `_ts_sample_count`,
`_ts_next_index`, `_ts_base`, `_ts_B0` (a `double`, modelled on `ℚ`) and
`_ts_B1` (`s32`). -/
structure TimeSyncState where
  ts_samples : ℕ → TimesPingSample
  ts_sample_count : ℕ
  ts_next_index : ℕ
  ts_base : ℕ
  ts_B0 : ℚ
  ts_B1 : ℤ

/-- Intermediate state of the lowest-RTT subset selection of
`UpdateTimeSynch`: the `BestSamples` array (as sample indices in position
order) together with `highest_rtt` / `highest_index`. -/
structure BestSel where
  best : List ℕ
  highRtt : ℕ
  highIdx : ℕ
deriving DecidableEq

/-- Body of the first selection loop (lines 814-825): track the highest RTT
seen and append the sample. -/
def selPhase1Step (samples : ℕ → TimesPingSample) (st : BestSel) (ii : ℕ) : BestSel :=
  let r := (samples ii).rtt
  let st1 := if st.highRtt < r then { st with highRtt := r, highIdx := ii } else st
  { st1 with best := st1.best ++ [ii] }

/-- First selection loop: `BestSamples[0] = &_ts_samples[0]` then fill up to
`m = min count num_samples` entries (lines 807-825). -/
def selPhase1 (samples : ℕ → TimesPingSample) (m : ℕ) : BestSel :=
  (List.range' 1 (m - 1)).foldl (selPhase1Step samples)
    { best := [0], highRtt := (samples 0).rtt, highIdx := 0 }

/-- Body of the rescan loop (lines 840-850): find the highest-RTT entry of
`BestSamples`; the accumulator is `(highest_rtt, highest_index)` and `je` is
an `(position, sample index)` pair. -/
def rescanStep (samples : ℕ → TimesPingSample) (acc : ℕ × ℕ) (je : ℕ × ℕ) : ℕ × ℕ :=
  if acc.1 < (samples je.2).rtt then ((samples je.2).rtt, je.1) else acc

/-- Body of the second selection loop (lines 828-851): a later sample with
strictly lower RTT replaces the current highest-RTT entry, after which the
highest entry is recomputed. -/
def selPhase2Step (samples : ℕ → TimesPingSample) (st : BestSel) (ii : ℕ) : BestSel :=
  let r := (samples ii).rtt
  if r < st.highRtt then
    let best1 := st.best.set st.highIdx ii
    let hh := best1.enum.foldl (rescanStep samples) (r, st.highIdx)
    { best := best1, highRtt := hh.1, highIdx := hh.2 }
  else st

/-- Second selection loop over the remaining samples `m ≤ ii < count`. -/
def selPhase2 (samples : ℕ → TimesPingSample) (m count : ℕ) (st : BestSel) : BestSel :=
  (List.range' m (count - m)).foldl (selPhase2Step samples) st

/-- The complete lowest-RTT subset selection of `UpdateTimeSynch`
(lines 802-851), returning the `BestSamples` indices. -/
def bestSelect (samples : ℕ → TimesPingSample) (count : ℕ) : List ℕ :=
  let num_samples := max (count / 4) MIN_TS_SAMPLES
  let m := min count num_samples
  (selPhase2 samples m count (selPhase1 samples m)).best

/-- `sum_delta`: the `s64` sum of the deltas of the selected samples
(lines 859-872 and 895-901). -/
def sumDeltaBest (samples : ℕ → TimesPingSample) (best : List ℕ) : ℤ :=
  best.foldl (fun acc i => acc + (samples i).delta) 0

/-- `avg_delta = (u32)(sum_delta / best_count)` (line 874), with C++ `s64`
division truncating toward zero. -/
def avgDelta (samples : ℕ → TimesPingSample) (best : List ℕ) : ℤ :=
  toU32 (Int.tdiv (sumDeltaBest samples best) (best.length : ℤ))

/-- `base_time = pong_time - MAX_TS_SAMPLES * TIME_SYNC_INTERVAL -
TIME_SYNC_INTERVAL` in `u32` arithmetic (line 892). -/
def baseTimeOf (pong_time : ℕ) : ℕ :=
  u32sub (u32sub pong_time (MAX_TS_SAMPLES * TIME_SYNC_INTERVAL)) TIME_SYNC_INTERVAL

/-- `sum_when` (lines 895-901): the first selected sample contributes its raw
`u32` offset, later ones contribute the offset reinterpreted as `s32`. -/
def sumWhenBest (samples : ℕ → TimesPingSample) (base : ℕ) (best : List ℕ) : ℤ :=
  match best with
  | [] => 0
  | b :: rest =>
    rest.foldl (fun acc i => acc + toS32 ((u32sub (samples i).whenv base : ℕ) : ℤ))
      ((u32sub (samples b).whenv base : ℕ) : ℤ)

/-- `when_term = (u32)(when - base_time) * (s64)best_count - sum_when`
(line 912). -/
def whenTermOf (samples : ℕ → TimesPingSample) (base : ℕ) (n sumW : ℤ) (i : ℕ) : ℤ :=
  ((u32sub (samples i).whenv base : ℕ) : ℤ) * n - sumW

/-- `delta_term = delta * (s64)best_count - sum_delta` (line 913). -/
def deltaTermOf (samples : ℕ → TimesPingSample) (n sumD : ℤ) (i : ℕ) : ℤ :=
  (samples i).delta * n - sumD

/-- `B0_numerator = Σ when_term * delta_term` (lines 904-917). -/
def b0Numerator (samples : ℕ → TimesPingSample) (base : ℕ) (n sumW sumD : ℤ)
    (best : List ℕ) : ℤ :=
  best.foldl
    (fun acc i => acc + whenTermOf samples base n sumW i * deltaTermOf samples n sumD i) 0

/-- `B0_denominator = Σ when_term * when_term` (lines 904-917). -/
def b0Denominator (samples : ℕ → TimesPingSample) (base : ℕ) (n sumW : ℤ)
    (best : List ℕ) : ℤ :=
  best.foldl
    (fun acc i => acc + whenTermOf samples base n sumW i * whenTermOf samples base n sumW i) 0

/-- Lines 778-788 of `UpdateTimeSynch`: bump the sample count (saturating at
`MAX_TS_SAMPLES`), write the new sample at `_ts_next_index`, advance the ring
index. -/
def insertSample (st : TimeSyncState) (pong_time rtt : ℕ) (delta : ℤ) : TimeSyncState :=
  { st with
    ts_sample_count :=
      if st.ts_sample_count < MAX_TS_SAMPLES then st.ts_sample_count + 1 else st.ts_sample_count
    ts_samples := Function.update st.ts_samples st.ts_next_index ⟨delta, pong_time, rtt⟩
    ts_next_index := (st.ts_next_index + 1) % MAX_TS_SAMPLES }

/-- `Client::UpdateTimeSynch` (lines 776-940).  The diagnostic CSV logging and
the `_ts_delta_test1/2` hooks are omitted; the average block (lines 853-886)
runs unconditionally, as in the source, and its published `(B0, B1)` survive
only if `best_count < MIN_DRIFT_SAMPLES` or they are overwritten by a later
block.  `double` arithmetic is modelled on `ℚ` with the `(s32)` cast as
truncation toward zero. -/
def updateTimeSynch (st : TimeSyncState) (pong_time rtt : ℕ) (delta : ℤ) : TimeSyncState :=
  let st1 := insertSample st pong_time rtt delta
  if st1.ts_sample_count ≤ 1 then { st1 with ts_B0 := 0, ts_B1 := delta }
  else
    let best := bestSelect st1.ts_samples st1.ts_sample_count
    let st2 := { st1 with ts_B0 := 0, ts_B1 := toS32 (avgDelta st1.ts_samples best) }
    if best.length < MIN_DRIFT_SAMPLES then st2
    else
      let base := baseTimeOf pong_time
      let n : ℤ := (best.length : ℤ)
      let sumW := sumWhenBest st1.ts_samples base best
      let sumD := sumDeltaBest st1.ts_samples best
      let num := b0Numerator st1.ts_samples base n sumW sumD best
      let den := b0Denominator st1.ts_samples base n sumW best
      if den ≤ 0 then { st2 with ts_B0 := 0, ts_B1 := delta }
      else
        let B0 : ℚ := (num : ℚ) / (den : ℚ)
        { st2 with
          ts_base := base
          ts_B0 := B0
          ts_B1 := toS32 (truncQ (((sumD : ℚ) - B0 * (sumW : ℚ)) / (n : ℚ))) }

/-! ### Post-handshake client state: teardown and internal messages
(`Client::Disconnect`, `Client::ConnectFail`, `Client::OnInternal`) -/

/-- Upcalls of the post-handshake client. -/
inductive ClientUpcall
  | onConnect
  | onDisconnect (reason : ℕ)
  | onConnectFail (err : ℕ)
  | onTimestampDeltaUpdate
deriving DecidableEq

/-- Post-handshake client state relevant to the claims: `_max_payload_bytes`,
the clock-sync state, the one-shot `_destroyed` flag, `_kill_flag`, the posted
disconnect notifications, and the upcalls made so far. -/
structure ClientPost where
  max_payload_bytes : ℕ
  ts : TimeSyncState
  destroyed : ℕ
  kill_flag : Bool
  posted_disco : List ℕ
  upcalls : List ClientUpcall

/-- `Client::Disconnect(reason, notify)` (lines 633-648).  `Atomic::Set`
returns the previous value of `_destroyed`; the body runs only for the caller
that performs the 0 to 1 transition. -/
def clientDisconnect (st : ClientPost) (reason : ℕ) (notify : Bool) : ClientPost :=
  if st.destroyed = 0 then
    { st with
      destroyed := 1
      posted_disco := if notify then st.posted_disco ++ [reason] else st.posted_disco
      upcalls := st.upcalls ++ [ClientUpcall.onDisconnect reason]
      kill_flag := true }
  else st

/-- `Client::ConnectFail(err)` (lines 650-662), sharing the same one-shot
`_destroyed` flag. -/
def clientConnectFail (st : ClientPost) (err : ℕ) : ClientPost :=
  if st.destroyed = 0 then
    { st with
      destroyed := 1
      upcalls := st.upcalls ++ [ClientUpcall.onConnectFail err]
      kill_flag := true }
  else st

/-- A teardown invocation: one call to `Disconnect` or to `ConnectFail`. -/
inductive TeardownCall
  | disc (reason : ℕ) (notify : Bool)
  | fail (err : ℕ)
deriving DecidableEq

/-- Apply one teardown invocation. -/
def teardownStep (st : ClientPost) : TeardownCall → ClientPost
  | TeardownCall.disc reason notify => clientDisconnect st reason notify
  | TeardownCall.fail err => clientConnectFail st err

/-- The upcall a winning teardown invocation performs. -/
def upcallOfCall : TeardownCall → ClientUpcall
  | TeardownCall.disc reason _ => ClientUpcall.onDisconnect reason
  | TeardownCall.fail err => ClientUpcall.onConnectFail err

/-- Opcode and length constants of the internal message handler
(`IOP_S2C_MTU_SET`, `IOP_S2C_TIME_PONG`, `IOP_DISCO` and their `_LEN`
companions).  These enums live in headers missing from the snapshot, so the
handler is parameterized over them; spec section 4.1 and the handler bodies
fix the shapes (`u16` payload, two `u32` timestamps, one reason byte). -/
structure IopConfig where
  iopMtuSet : ℕ
  iopTimePong : ℕ
  iopDisco : ℕ
  lenMtuSet : ℕ
  lenTimePong : ℕ
  lenDisco : ℕ

/-- `Client::OnInternal` (lines 563-631).  `now` is the value of
`Clock::msec()` read in the TIME_PONG case; the CSV diagnostic block is
omitted.  The branches mirror the `switch` on `data[0]`. -/
def onInternal (cfg : IopConfig) (st : ClientPost) (now : ℕ) (data : List ℕ) : ClientPost :=
  let op := data.getD 0 0
  if op = cfg.iopMtuSet then
    if data.length = cfg.lenMtuSet then
      let max_payload_bytes := getLE16 data 1
      if st.max_payload_bytes < max_payload_bytes then
        { st with max_payload_bytes := max_payload_bytes }
      else st
    else st
  else if op = cfg.iopTimePong then
    if data.length = cfg.lenTimePong then
      let client_ping_send_time := getLE32 data 1
      let server_ping_recv_time := getLE32 data 5
      let rtt := u32sub now client_ping_send_time
      if rtt < TIMEOUT_DISCONNECT then
        let delta :=
          toS32 ((server_ping_recv_time : ℤ) - (client_ping_send_time : ℤ) - ((rtt / 2 : ℕ) : ℤ))
        { st with
          ts := updateTimeSynch st.ts now rtt delta
          upcalls := st.upcalls ++ [ClientUpcall.onTimestampDeltaUpdate] }
      else st
    else st
  else if op = cfg.iopDisco then
    if data.length = cfg.lenDisco then clientDisconnect st (data.getD 1 0) false
    else st
  else st

/-! ### Client handshake timer loop (`Client::ThreadFunction`,
SphynxClient_DriftCalculations.cpp lines 384-430, and `Client::PostHello`) -/

/-- The hello-loop variables of `Client::ThreadFunction`
(lines 384-387). -/
structure HelloState where
  first_hello_post : ℕ
  last_hello_post : ℕ
  hello_post_interval : ℕ
deriving DecidableEq

/-- Outcome of one handshake-loop iteration: fail with `ERR_CLIENT_TIMEOUT`
and stop, fail with `ERR_CLIENT_BROKEN_PIPE` (hello repost failed) and stop,
or continue with updated loop state (`reposted` records whether a hello was
posted this tick). -/
inductive HelloTick
  | failTimeout
  | failBrokenPipe
  | tick (s : HelloState) (reposted : Bool)
deriving DecidableEq

/-- One iteration of the handshake loop body (lines 400-427), entered while
still not connected.  `connectTimeout` is `CONNECT_TIMEOUT` and `postOk` the
outcome of `PostHello`; both live outside the snapshot (missing header /
socket layer).  All time arithmetic is `u32`. -/
def helloTick (connectTimeout : ℕ) (postOk : Bool) (s : HelloState) (now : ℕ) : HelloTick :=
  if connectTimeout ≤ u32sub now s.first_hello_post then HelloTick.failTimeout
  else if s.hello_post_interval ≤ u32sub now s.last_hello_post then
    if postOk then
      HelloTick.tick
        { s with
          last_hello_post := now
          hello_post_interval := s.hello_post_interval * 2 % 2 ^ 32 } true
    else HelloTick.failBrokenPipe
  else HelloTick.tick s false

/-- Initialization of the hello loop (lines 384-387): both timestamps start at
`start_time` and the interval starts at `INITIAL_HELLO_POST_INTERVAL` (a
constant of the missing SphynxClient.hpp, carried as a parameter). -/
def helloInit (initialHelloPostInterval start_time : ℕ) : HelloState :=
  ⟨start_time, start_time, initialHelloPostInterval⟩

/-! ### Intrusive linked lists (src/unnamed/part_001 and
include/cat/lang/DoublyLinkedLists.hpp) -/

/-- A doubly-linked-list node: the `next`/`prev` member pointers, with `none`
for null. -/
structure DNode where
  next : Option ℕ
  prev : Option ℕ
deriving DecidableEq

/-- A bi-directional doubly linked list: head and tail pointers plus the heap
of nodes. -/
structure BDLL where
  head : Option ℕ
  tail : Option ℕ
  heap : ℕ → DNode

/-- A forward-only doubly linked list: head pointer plus the heap of nodes. -/
structure FDLL where
  head : Option ℕ
  heap : ℕ → DNode

/-- Write the `next` field of node `p`. -/
def setNext (h : ℕ → DNode) (p : ℕ) (v : Option ℕ) : ℕ → DNode :=
  Function.update h p { h p with next := v }

/-- Write the `prev` field of node `p`. -/
def setPrev (h : ℕ → DNode) (p : ℕ) (v : Option ℕ) : ℕ → DNode :=
  Function.update h p { h p with prev := v }

/-- `CAT_BDLL_INSERT_BEFORE(head, tail, obj, another, next, prev)`
(src/unnamed/part_001 lines 521-529), statement by statement. -/
def bdllInsertBefore (l : BDLL) (obj another : ℕ) : BDLL :=
  let h1 := setPrev l.heap obj (l.heap another).prev
  let h2 := setNext h1 obj (some another)
  let head1 := if (h2 another).prev = none then some obj else l.head
  let h3 := setPrev h2 another (some obj)
  { head := head1, tail := l.tail, heap := h3 }

/-- `CAT_BDLL_INSERT_AFTER(head, tail, obj, another, next, prev)`
(src/unnamed/part_001 lines 541-549), statement by statement. -/
def bdllInsertAfter (l : BDLL) (obj another : ℕ) : BDLL :=
  let h1 := setNext l.heap obj (l.heap another).next
  let h2 := setPrev h1 obj (some another)
  let tail1 := if (h2 another).next = none then some obj else l.tail
  let h3 := setNext h2 another (some obj)
  { head := l.head, tail := tail1, heap := h3 }

/-- `CAT_FDLL_INSERT_BEFORE(head, obj, another, next, prev)`
(DoublyLinkedLists.hpp lines 98-106), statement by statement. -/
def fdllInsertBefore (l : FDLL) (obj another : ℕ) : FDLL :=
  let h1 := setPrev l.heap obj (l.heap another).prev
  let h2 := setNext h1 obj (some another)
  let head1 := if (h2 another).prev = none then some obj else l.head
  let h3 := setPrev h2 another (some obj)
  { head := head1, heap := h3 }

/-- Forward traversal `for (item = head; item; item = item->next)`, with fuel
bounding the walk. -/
def fwdChain (heap : ℕ → DNode) : ℕ → Option ℕ → List ℕ
  | 0, _ => []
  | _ + 1, none => []
  | fuel + 1, some p => p :: fwdChain heap fuel (heap p).next

/-- Backward traversal `for (item = tail; item; item = item->prev)`, with fuel
bounding the walk. -/
def bwdChain (heap : ℕ → DNode) : ℕ → Option ℕ → List ℕ
  | 0, _ => []
  | _ + 1, none => []
  | fuel + 1, some p => p :: bwdChain heap fuel (heap p).prev

/-- The two-node heap `0 <-> 1` used as the concrete list of claims C9/C10:
node 0 has next 1, node 1 has prev 0, all other slots are detached. -/
def listHeap01 : ℕ → DNode := fun i =>
  if i = 0 then ⟨some 1, none⟩ else if i = 1 then ⟨none, some 0⟩ else ⟨none, none⟩

/-- The concrete well-formed two-element bi-directional list `[0, 1]`. -/
def bdll01 : BDLL := ⟨some 0, some 1, listHeap01⟩

/-- The concrete well-formed two-element forward list `[0, 1]`. -/
def fdll01 : FDLL := ⟨some 0, listHeap01⟩

/-- `DListForward::empty()` (src/unnamed/part_001 line 617): literally
`return _head != 0;`. -/
def dlistForwardEmpty (head : Option ℕ) : Bool := decide (head ≠ none)

/-- `DList::empty()` (src/unnamed/part_001 line 702): literally
`return _head != 0;` (the tail is not consulted). -/
def dlistEmpty (head _tail : Option ℕ) : Bool := decide (head ≠ none)

/-- `SList::empty()` (src/unnamed/part_001 line 897): literally
`return _head != 0;`. -/
def slistEmpty (head : Option ℕ) : Bool := decide (head ≠ none)

/-! ### Concrete inputs for claims C6 and C7 -/

/-- Pre-state for the C6 counterexample: 15 samples, all taken at the same
`when = 100` with RTT 50 and delta 0, next write slot 15. -/
def c6State : TimeSyncState :=
  ⟨fun _ => ⟨0, 100, 50⟩, 15, 15, 0, 0, 0⟩

/-- The sample array after the 16th call `UpdateTimeSynch(100, 50, 100)`. -/
def c6Samples : ℕ → TimesPingSample :=
  (insertSample c6State 100 50 100).ts_samples

/-- The selected lowest-RTT subset in the C6 counterexample run. -/
def c6Best : List ℕ := bestSelect c6Samples 16

/-- Computable strict-increase check on a list of naturals (used to state the
strict monotonicity hypothesis of claim C7). -/
def strictIncr : List ℕ → Bool
  | [] => true
  | [_] => true
  | a :: b :: rest => decide (a < b) && strictIncr (b :: rest)

/-- Pre-state for the C7 witness: a full ring of 64 samples with constant
delta 7, constant RTT 50 and strictly increasing `when`, next write slot 0. -/
def c7State : TimeSyncState :=
  ⟨fun i => ⟨7, 1000 * i + 1000, 50⟩, 64, 0, 0, 0, 0⟩

/-- The sample array after the C7 witness call `UpdateTimeSynch(500, 50, 7)`. -/
def c7Samples : ℕ → TimesPingSample :=
  (insertSample c7State 500 50 7).ts_samples

/-- The selected lowest-RTT subset in the C7 witness run. -/
def c7Best : List ℕ := bestSelect c7Samples 64

/-- An all-zero clock-sync state (fresh client, constructor lines 53-58). -/
def tsZero : TimeSyncState := ⟨fun _ => ⟨0, 0, 0⟩, 0, 0, 0, 0, 0⟩

/-- A live post-handshake client state (`_destroyed = 0`, no upcalls yet). -/
def clientPost0 : ClientPost := ⟨1400, tsZero, 0, false, [], []⟩

/-- A torn-down client state (`_destroyed = 1`). -/
def clientPost1 : ClientPost := ⟨1400, tsZero, 1, true, [], [ClientUpcall.onDisconnect 3]⟩

/-- A concrete assignment of the internal opcode/length constants used by the
claim C4 witness. -/
def iopCfg0 : IopConfig := ⟨4, 5, 6, 3, 9, 2⟩

/-- A concrete handshake configuration for witnesses: key agreement always
succeeds and derives key 42, allocation and posting succeed. -/
def hsCfg0 : HsConfig :=
  ⟨fun _ => some 11, fun _ => some 42, 6, 7, 8, true, true⟩

/-- A concrete unconnected client handshake state with bootstrap port 5000. -/
def hsSt0 : HsClientState := ⟨false, 5000, none, []⟩

/-- A concrete well-formed S2C_ANSWER packet advertising session port 5001
(bytes `0x89 0x13` little-endian) followed by 128 answer bytes. -/
def answerPkt0 : List ℕ := S2C_ANSWER :: 137 :: 19 :: List.replicate 128 0

/-! ### Theorems -/

/-- The u32 wrap-around performed by the C++ probe step is invisible modulo
the table size, because `HASH_TABLE_SIZE` divides `2^32`. -/
theorem next_collision_key_u32 (key : ℕ) :
    ((COLLISION_MULTIPLIER * key + COLLISION_INCREMENTER) % 2 ^ 32) % HASH_TABLE_SIZE =
      next_collision_key key := by
  unfold next_collision_key HASH_TABLE_SIZE
  exact Nat.mod_mod_of_dvd _ (by norm_num)

/-- Casting a value of `ZMod 32768` back via `val` is the identity. -/
theorem zmodN_natCast_val (y : ZMod 32768) : ((y.val : ℕ) : ZMod 32768) = y := by
  rw [ZMod.natCast_val, ZMod.cast_id]

/-- `next_collision_key` agrees with the `ZMod 32768` affine step through `val`. -/
theorem next_collision_key_val (y : ZMod 32768) :
    next_collision_key y.val = (collisionStepZ y).val := by
  unfold next_collision_key collisionStepZ HASH_TABLE_SIZE
  have h : ((COLLISION_MULTIPLIER * y.val + COLLISION_INCREMENTER : ℕ) : ZMod 32768) =
      (COLLISION_MULTIPLIER : ZMod 32768) * y + (COLLISION_INCREMENTER : ZMod 32768) := by
    push_cast
    rw [zmodN_natCast_val]
  rw [← h, ZMod.val_natCast]

/-- Iterating the probe step `t` times is the affine map
`x ↦ a^t * x + c * (∑_{i<t} a^i)`. -/
theorem collisionStepZ_iterate (t : ℕ) (x : ZMod 32768) :
    collisionStepZ^[t] x =
      (COLLISION_MULTIPLIER : ZMod 32768) ^ t * x +
        (COLLISION_INCREMENTER : ZMod 32768) * geomSumB (COLLISION_MULTIPLIER : ZMod 32768) t := by
  induction t with
  | zero => simp [geomSumB]
  | succ t ih =>
    rw [Function.iterate_succ_apply', ih]
    unfold collisionStepZ geomSumB
    rw [geom_sum_succ]
    ring

/-- Fixed-point criterion: `x` is a period-`t` point of the probe step iff the
geometric sum `∑_{i<t} a^i` annihilates the element `(a-1)*x + c`. -/
theorem collisionStepZ_fixed_iff (t : ℕ) (x : ZMod 32768) :
    collisionStepZ^[t] x = x ↔
      geomSumB (COLLISION_MULTIPLIER : ZMod 32768) t *
        (((COLLISION_MULTIPLIER : ZMod 32768) - 1) * x + (COLLISION_INCREMENTER : ZMod 32768)) = 0 := by
  have hgeom := geom_sum_mul (COLLISION_MULTIPLIER : ZMod 32768) t
  have key : geomSumB (COLLISION_MULTIPLIER : ZMod 32768) t *
      (((COLLISION_MULTIPLIER : ZMod 32768) - 1) * x + (COLLISION_INCREMENTER : ZMod 32768)) =
      ((COLLISION_MULTIPLIER : ZMod 32768) ^ t * x +
        (COLLISION_INCREMENTER : ZMod 32768) * geomSumB (COLLISION_MULTIPLIER : ZMod 32768) t) - x := by
    unfold geomSumB at hgeom ⊢
    linear_combination x * hgeom
  rw [collisionStepZ_iterate, ← sub_eq_zero, key]

/-- In `ZMod 32768 = ZMod 2^15`, an element with odd `val` is a
non-zero-divisor: it cancels from products that vanish. -/
theorem zmodN_odd_cancel (u v : ZMod 32768) (hu : u.val % 2 = 1) (huv : u * v = 0) :
    v = 0 := by
  have hval : (u * v).val = 0 := by rw [huv]; exact ZMod.val_zero
  rw [ZMod.val_mul] at hval
  have hdvd : (32768 : ℕ) ∣ u.val * v.val := Nat.dvd_of_mod_eq_zero hval
  have hcop : Nat.Coprime 32768 u.val := by
    have h2 : Nat.Coprime 2 u.val := by
      rw [Nat.Prime.coprime_iff_not_dvd Nat.prime_two]
      intro hdvd2
      omega
    have : Nat.Coprime (2 ^ 15) u.val := Nat.Coprime.pow_left 15 h2
    simpa using this
  have hv : (32768 : ℕ) ∣ v.val := hcop.dvd_of_dvd_mul_left hdvd
  have hlt : v.val < 32768 := ZMod.val_lt v
  have : v.val = 0 := Nat.eq_zero_of_dvd_of_lt hv hlt
  exact ZMod.val_injective 32768 (by simpa [ZMod.val_zero] using this)

/-- Products of odd-`val` elements of `ZMod 32768` have odd `val`. -/
theorem zmodN_val_mul_odd (u v : ZMod 32768) (hu : u.val % 2 = 1) (hv : v.val % 2 = 1) :
    (u * v).val % 2 = 1 := by
  rw [ZMod.val_mul]
  have h2 : (2 : ℕ) ∣ 32768 := by norm_num
  rw [Nat.mod_mod_of_dvd _ h2, Nat.mul_mod, hu, hv]

/-- Powers of an odd-`val` element of `ZMod 32768` have odd `val`. -/
theorem zmodN_val_pow_odd (b : ZMod 32768) (hb : b.val % 2 = 1) (n : ℕ) :
    (b ^ n).val % 2 = 1 := by
  induction n with
  | zero => rfl
  | succ n ih =>
    rw [pow_succ]
    exact zmodN_val_mul_odd _ _ ih hb

/-- Parity of the geometric sum: for an odd-`val` base, `(∑_{i<t} b^i).val`
has the parity of `t`. -/
theorem geomSumB_val_parity (b : ZMod 32768) (hb : b.val % 2 = 1) (t : ℕ) :
    (geomSumB b t).val % 2 = t % 2 := by
  induction t with
  | zero => rfl
  | succ t ih =>
    unfold geomSumB
    rw [Finset.sum_range_succ]
    have h2 : (2 : ℕ) ∣ 32768 := by norm_num
    rw [ZMod.val_add, Nat.mod_mod_of_dvd _ h2, Nat.add_mod]
    unfold geomSumB at ih
    rw [ih, zmodN_val_pow_odd b hb t]
    omega

/-- Multiplicative splitting of the geometric sum:
`∑_{i<nm} b^i = (∑_{i<n} b^i) * (∑_{j<m} (b^n)^j)`. -/
theorem geomSumB_mul_split (b : ZMod 32768) (n m : ℕ) :
    geomSumB b (n * m) = geomSumB b n * geomSumB (b ^ n) m := by
  induction m with
  | zero => simp [geomSumB]
  | succ m ih =>
    unfold geomSumB at ih ⊢
    rw [Nat.mul_succ, Finset.sum_range_add, Finset.sum_range_succ (fun j => (b ^ n) ^ j) m, ih]
    have : ∀ i ∈ Finset.range n, b ^ (n * m + i) = (b ^ n) ^ m * b ^ i := by
      intro i _
      rw [pow_add, pow_mul]
    rw [Finset.sum_congr rfl this, ← Finset.mul_sum]
    ring

/-- Doubling identity for the geometric sum. -/
theorem geomSumB_double (b : ZMod 32768) (t : ℕ) :
    geomSumB b (t * 2) = geomSumB b t * (1 + b ^ t) := by
  rw [geomSumB_mul_split]
  have : geomSumB (b ^ t) 2 = 1 + b ^ t := by
    unfold geomSumB
    rw [Finset.sum_range_succ, Finset.sum_range_one]
    simp
  rw [this]

/-- Value of the probe multiplier in `ZMod 32768`. -/
theorem cmz_pow_1 : (COLLISION_MULTIPLIER : ZMod 32768) ^ 1 = 26125 := by decide

/-- Repeated squaring: `a^2` in `ZMod 32768`. -/
theorem cmz_pow_2 : (COLLISION_MULTIPLIER : ZMod 32768) ^ 2 = 23721 := by
  have h : (2 : ℕ) = 1 * 2 := by norm_num
  rw [h, pow_mul, cmz_pow_1]
  decide

/-- Repeated squaring: `a^4` in `ZMod 32768`. -/
theorem cmz_pow_4 : (COLLISION_MULTIPLIER : ZMod 32768) ^ 4 = 26513 := by
  have h : (4 : ℕ) = 2 * 2 := by norm_num
  rw [h, pow_mul, cmz_pow_2]
  decide

/-- Repeated squaring: `a^8` in `ZMod 32768`. -/
theorem cmz_pow_8 : (COLLISION_MULTIPLIER : ZMod 32768) ^ 8 = 33 := by
  have h : (8 : ℕ) = 4 * 2 := by norm_num
  rw [h, pow_mul, cmz_pow_4]
  decide

/-- Repeated squaring: `a^16` in `ZMod 32768`. -/
theorem cmz_pow_16 : (COLLISION_MULTIPLIER : ZMod 32768) ^ 16 = 1089 := by
  have h : (16 : ℕ) = 8 * 2 := by norm_num
  rw [h, pow_mul, cmz_pow_8]
  decide

/-- Repeated squaring: `a^32` in `ZMod 32768`. -/
theorem cmz_pow_32 : (COLLISION_MULTIPLIER : ZMod 32768) ^ 32 = 6273 := by
  have h : (32 : ℕ) = 16 * 2 := by norm_num
  rw [h, pow_mul, cmz_pow_16]
  decide

/-- Repeated squaring: `a^64` in `ZMod 32768`. -/
theorem cmz_pow_64 : (COLLISION_MULTIPLIER : ZMod 32768) ^ 64 = 28929 := by
  have h : (64 : ℕ) = 32 * 2 := by norm_num
  rw [h, pow_mul, cmz_pow_32]
  decide

/-- Repeated squaring: `a^128` in `ZMod 32768`. -/
theorem cmz_pow_128 : (COLLISION_MULTIPLIER : ZMod 32768) ^ 128 = 25089 := by
  have h : (128 : ℕ) = 64 * 2 := by norm_num
  rw [h, pow_mul, cmz_pow_64]
  decide

/-- Repeated squaring: `a^256` in `ZMod 32768`. -/
theorem cmz_pow_256 : (COLLISION_MULTIPLIER : ZMod 32768) ^ 256 = 17409 := by
  have h : (256 : ℕ) = 128 * 2 := by norm_num
  rw [h, pow_mul, cmz_pow_128]
  decide

/-- Repeated squaring: `a^512` in `ZMod 32768`. -/
theorem cmz_pow_512 : (COLLISION_MULTIPLIER : ZMod 32768) ^ 512 = 2049 := by
  have h : (512 : ℕ) = 256 * 2 := by norm_num
  rw [h, pow_mul, cmz_pow_256]
  decide

/-- Repeated squaring: `a^1024` in `ZMod 32768`. -/
theorem cmz_pow_1024 : (COLLISION_MULTIPLIER : ZMod 32768) ^ 1024 = 4097 := by
  have h : (1024 : ℕ) = 512 * 2 := by norm_num
  rw [h, pow_mul, cmz_pow_512]
  decide

/-- Repeated squaring: `a^2048` in `ZMod 32768`. -/
theorem cmz_pow_2048 : (COLLISION_MULTIPLIER : ZMod 32768) ^ 2048 = 8193 := by
  have h : (2048 : ℕ) = 1024 * 2 := by norm_num
  rw [h, pow_mul, cmz_pow_1024]
  decide

/-- Repeated squaring: `a^4096` in `ZMod 32768`. -/
theorem cmz_pow_4096 : (COLLISION_MULTIPLIER : ZMod 32768) ^ 4096 = 16385 := by
  have h : (4096 : ℕ) = 2048 * 2 := by norm_num
  rw [h, pow_mul, cmz_pow_2048]
  decide

/-- Repeated squaring: `a^8192` in `ZMod 32768`. -/
theorem cmz_pow_8192 : (COLLISION_MULTIPLIER : ZMod 32768) ^ 8192 = 1 := by
  have h : (8192 : ℕ) = 4096 * 2 := by norm_num
  rw [h, pow_mul, cmz_pow_4096]
  decide

/-- Repeated squaring: `a^16384` in `ZMod 32768`. -/
theorem cmz_pow_16384 : (COLLISION_MULTIPLIER : ZMod 32768) ^ 16384 = 1 := by
  have h : (16384 : ℕ) = 8192 * 2 := by norm_num
  rw [h, pow_mul, cmz_pow_8192]
  decide

/-- Geometric sum of the probe multiplier over one term. -/
theorem cmz_geom_1 : geomSumB (COLLISION_MULTIPLIER : ZMod 32768) 1 = 1 := by
  unfold geomSumB
  simp

/-- Geometric sum of the probe multiplier over `2` terms. -/
theorem cmz_geom_2 : geomSumB (COLLISION_MULTIPLIER : ZMod 32768) 2 = 26126 := by
  have h := geomSumB_double (COLLISION_MULTIPLIER : ZMod 32768) 1
  norm_num at h
  rw [h, cmz_geom_1]
  decide

/-- Geometric sum of the probe multiplier over `4` terms. -/
theorem cmz_geom_4 : geomSumB (COLLISION_MULTIPLIER : ZMod 32768) 4 = 19788 := by
  have h := geomSumB_double (COLLISION_MULTIPLIER : ZMod 32768) 2
  norm_num at h
  rw [h, cmz_geom_2, cmz_pow_2]
  decide

/-- Geometric sum of the probe multiplier over `8` terms. -/
theorem cmz_geom_8 : geomSumB (COLLISION_MULTIPLIER : ZMod 32768) 8 = 10584 := by
  have h := geomSumB_double (COLLISION_MULTIPLIER : ZMod 32768) 4
  norm_num at h
  rw [h, cmz_geom_4, cmz_pow_4]
  decide

/-- Geometric sum of the probe multiplier over `16` terms. -/
theorem cmz_geom_16 : geomSumB (COLLISION_MULTIPLIER : ZMod 32768) 16 = 32176 := by
  have h := geomSumB_double (COLLISION_MULTIPLIER : ZMod 32768) 8
  norm_num at h
  rw [h, cmz_geom_8, cmz_pow_8]
  decide

/-- Geometric sum of the probe multiplier over `32` terms. -/
theorem cmz_geom_32 : geomSumB (COLLISION_MULTIPLIER : ZMod 32768) 32 = 10080 := by
  have h := geomSumB_double (COLLISION_MULTIPLIER : ZMod 32768) 16
  norm_num at h
  rw [h, cmz_geom_16, cmz_pow_16]
  decide

/-- Geometric sum of the probe multiplier over `64` terms. -/
theorem cmz_geom_64 : geomSumB (COLLISION_MULTIPLIER : ZMod 32768) 64 = 32448 := by
  have h := geomSumB_double (COLLISION_MULTIPLIER : ZMod 32768) 32
  norm_num at h
  rw [h, cmz_geom_32, cmz_pow_32]
  decide

/-- Geometric sum of the probe multiplier over `128` terms. -/
theorem cmz_geom_128 : geomSumB (COLLISION_MULTIPLIER : ZMod 32768) 128 = 15744 := by
  have h := geomSumB_double (COLLISION_MULTIPLIER : ZMod 32768) 64
  norm_num at h
  rw [h, cmz_geom_64, cmz_pow_64]
  decide

/-- Geometric sum of the probe multiplier over `256` terms. -/
theorem cmz_geom_256 : geomSumB (COLLISION_MULTIPLIER : ZMod 32768) 256 = 31488 := by
  have h := geomSumB_double (COLLISION_MULTIPLIER : ZMod 32768) 128
  norm_num at h
  rw [h, cmz_geom_128, cmz_pow_128]
  decide

/-- Geometric sum of the probe multiplier over `512` terms. -/
theorem cmz_geom_512 : geomSumB (COLLISION_MULTIPLIER : ZMod 32768) 512 = 30208 := by
  have h := geomSumB_double (COLLISION_MULTIPLIER : ZMod 32768) 256
  norm_num at h
  rw [h, cmz_geom_256, cmz_pow_256]
  decide

/-- Geometric sum of the probe multiplier over `1024` terms. -/
theorem cmz_geom_1024 : geomSumB (COLLISION_MULTIPLIER : ZMod 32768) 1024 = 27648 := by
  have h := geomSumB_double (COLLISION_MULTIPLIER : ZMod 32768) 512
  norm_num at h
  rw [h, cmz_geom_512, cmz_pow_512]
  decide

/-- Geometric sum of the probe multiplier over `2048` terms. -/
theorem cmz_geom_2048 : geomSumB (COLLISION_MULTIPLIER : ZMod 32768) 2048 = 22528 := by
  have h := geomSumB_double (COLLISION_MULTIPLIER : ZMod 32768) 1024
  norm_num at h
  rw [h, cmz_geom_1024, cmz_pow_1024]
  decide

/-- Geometric sum of the probe multiplier over `4096` terms. -/
theorem cmz_geom_4096 : geomSumB (COLLISION_MULTIPLIER : ZMod 32768) 4096 = 12288 := by
  have h := geomSumB_double (COLLISION_MULTIPLIER : ZMod 32768) 2048
  norm_num at h
  rw [h, cmz_geom_2048, cmz_pow_2048]
  decide

/-- Geometric sum of the probe multiplier over `8192` terms. -/
theorem cmz_geom_8192 : geomSumB (COLLISION_MULTIPLIER : ZMod 32768) 8192 = 24576 := by
  have h := geomSumB_double (COLLISION_MULTIPLIER : ZMod 32768) 4096
  norm_num at h
  rw [h, cmz_geom_4096, cmz_pow_4096]
  decide

/-- Geometric sum of the probe multiplier over `16384` terms. -/
theorem cmz_geom_16384 : geomSumB (COLLISION_MULTIPLIER : ZMod 32768) 16384 = 16384 := by
  have h := geomSumB_double (COLLISION_MULTIPLIER : ZMod 32768) 8192
  norm_num at h
  rw [h, cmz_geom_8192, cmz_pow_8192]
  decide

/-- Geometric sum of the probe multiplier over `32768` terms. -/
theorem cmz_geom_32768 : geomSumB (COLLISION_MULTIPLIER : ZMod 32768) 32768 = 0 := by
  have h := geomSumB_double (COLLISION_MULTIPLIER : ZMod 32768) 16384
  norm_num at h
  rw [h, cmz_geom_16384, cmz_pow_16384]
  decide

/-- The probe multiplier has odd `val`. -/
theorem cmz_val_odd : (COLLISION_MULTIPLIER : ZMod 32768).val % 2 = 1 := by decide

/-- For `k ≤ 14` the geometric sum over `2^k` terms is non-zero (concrete
values from the repeated-squaring chain). -/
theorem cmz_geom_pow2_ne_zero (k : ℕ) (hk : k ≤ 14) :
    geomSumB (COLLISION_MULTIPLIER : ZMod 32768) (2 ^ k) ≠ 0 := by
  interval_cases k <;>
    norm_num [cmz_geom_1, cmz_geom_2, cmz_geom_4, cmz_geom_8, cmz_geom_16, cmz_geom_32,
      cmz_geom_64, cmz_geom_128, cmz_geom_256, cmz_geom_512, cmz_geom_1024, cmz_geom_2048,
      cmz_geom_4096, cmz_geom_8192, cmz_geom_16384] <;>
    decide

/-- The geometric sum of the probe multiplier vanishes exactly on multiples of
the table size. -/
theorem cmz_geom_eq_zero_iff (t : ℕ) :
    geomSumB (COLLISION_MULTIPLIER : ZMod 32768) t = 0 ↔ 32768 ∣ t := by
  constructor
  · intro h0
    by_contra hndvd
    have ht : t ≠ 0 := by
      rintro rfl
      exact hndvd (dvd_zero _)
    obtain ⟨k, m, hm, rfl⟩ := Nat.exists_eq_two_pow_mul_odd ht
    rw [geomSumB_mul_split] at h0
    have hodd_pow : ((COLLISION_MULTIPLIER : ZMod 32768) ^ (2 ^ k)).val % 2 = 1 :=
      zmodN_val_pow_odd _ cmz_val_odd _
    have hodd : (geomSumB ((COLLISION_MULTIPLIER : ZMod 32768) ^ (2 ^ k)) m).val % 2 = 1 := by
      rw [geomSumB_val_parity _ hodd_pow]
      exact Nat.odd_iff.mp hm
    have h1 : geomSumB (COLLISION_MULTIPLIER : ZMod 32768) (2 ^ k) = 0 :=
      zmodN_odd_cancel _ _ hodd (by rw [mul_comm] at h0; exact h0)
    rcases le_or_lt k 14 with hk | hk
    · exact cmz_geom_pow2_ne_zero k hk h1
    · have h15 : (2 : ℕ) ^ 15 ∣ 2 ^ k := pow_dvd_pow 2 (by omega)
      exact hndvd (by simpa using h15.mul_right m)
  · rintro ⟨s, rfl⟩
    rw [show (32768 : ℕ) * s = 2 ^ 15 * s by norm_num, geomSumB_mul_split,
      show (2 : ℕ) ^ 15 = 32768 by norm_num, cmz_geom_32768, zero_mul]

/-- The element `(a-1)*x + c` has odd `val` for every `x` (the multiplier is
`1 mod 4` and the incrementer is odd). -/
theorem cmz_unit_odd (x : ZMod 32768) :
    (((COLLISION_MULTIPLIER : ZMod 32768) - 1) * x + (COLLISION_INCREMENTER : ZMod 32768)).val % 2
      = 1 := by
  have h2 : (2 : ℕ) ∣ 32768 := by norm_num
  have ha : ((COLLISION_MULTIPLIER : ZMod 32768) - 1).val % 2 = 0 := by decide
  have hc : (COLLISION_INCREMENTER : ZMod 32768).val % 2 = 1 := by decide
  rw [ZMod.val_add, Nat.mod_mod_of_dvd _ h2, Nat.add_mod, ZMod.val_mul,
    Nat.mod_mod_of_dvd _ h2, Nat.mul_mod, ha, hc]
  omega

/-- Periodicity of the probe step is independent of the start point: `x`
returns to itself after `t` steps iff the table size divides `t`. -/
theorem collisionStepZ_periodic_iff (t : ℕ) (x : ZMod 32768) :
    collisionStepZ^[t] x = x ↔ 32768 ∣ t := by
  rw [collisionStepZ_fixed_iff]
  constructor
  · intro h
    rw [mul_comm] at h
    exact (cmz_geom_eq_zero_iff t).mp (zmodN_odd_cancel _ _ (cmz_unit_odd x) h)
  · intro h
    rw [(cmz_geom_eq_zero_iff t).mpr h, zero_mul]

/-- Within one full period, distinct iteration counts give distinct probe
slots. -/
theorem collisionStepZ_inj (x : ZMod 32768) (s t : ℕ) (hs : s < 32768) (ht : t < 32768)
    (h : collisionStepZ^[s] x = collisionStepZ^[t] x) : s = t := by
  suffices haux : ∀ s t : ℕ, s < 32768 → t < 32768 → s ≤ t →
      collisionStepZ^[s] x = collisionStepZ^[t] x → s = t by
    rcases Nat.le_total s t with hle | hle
    · exact haux s t hs ht hle h
    · exact (haux t s ht hs hle h.symm).symm
  intro s t hs ht hle heq
  have hsplit : t = (t - s) + s := by omega
  rw [hsplit, Function.iterate_add_apply] at heq
  have hdvd : 32768 ∣ (t - s) := (collisionStepZ_periodic_iff _ _).mp heq.symm
  have : t - s = 0 := Nat.eq_zero_of_dvd_of_lt hdvd (by omega)
  omega

/-- Every slot is reached from every start slot in fewer than `32768` steps. -/
theorem collisionStepZ_surj (x y : ZMod 32768) :
    ∃ t, t < 32768 ∧ collisionStepZ^[t] x = y := by
  have hbij : Function.Bijective (fun t : Fin 32768 => collisionStepZ^[t.val] x) := by
    rw [Fintype.bijective_iff_injective_and_card]
    constructor
    · intro s t h
      exact Fin.ext (collisionStepZ_inj x s.val t.val s.is_lt t.is_lt h)
    · rw [ZMod.card, Fintype.card_fin]
  obtain ⟨t, hty⟩ := hbij.surjective y
  exact ⟨t.val, t.is_lt, hty⟩

/-- The `ℕ`-level probe function tracks the `ZMod` affine step through `val`. -/
theorem next_collision_key_iterate (t x : ℕ) (hx : x < 32768) :
    next_collision_key^[t] x = (collisionStepZ^[t] ((x : ℕ) : ZMod 32768)).val := by
  induction t with
  | zero => simp [ZMod.val_natCast, Nat.mod_eq_of_lt hx]
  | succ t ih =>
    rw [Function.iterate_succ_apply', Function.iterate_succ_apply', ih, next_collision_key_val]

/-- Claim C3: with `TABLE_SIZE = 32768`, `COLLISION_MULTIPLIER = 71*5861*4+1`
and `COLLISION_INCREMENTER = 1013904223`, the probe map
`key ↦ (COLLISION_MULTIPLIER * key + COLLISION_INCREMENTER) mod TABLE_SIZE` is
a full-period permutation: starting from any slot, its iterates are pairwise
distinct over the first `32768` steps, reach every one of the `32768` slots
(so any probe walk terminates within at most `TABLE_SIZE` steps), and return
to the start exactly at step `32768`. -/
theorem claim_C3 (x : ℕ) (hx : x < HASH_TABLE_SIZE) :
    (∀ s t, s < HASH_TABLE_SIZE → t < HASH_TABLE_SIZE →
        next_collision_key^[s] x = next_collision_key^[t] x → s = t)
    ∧ (∀ y, y < HASH_TABLE_SIZE → ∃ t, t < HASH_TABLE_SIZE ∧ next_collision_key^[t] x = y)
    ∧ next_collision_key^[HASH_TABLE_SIZE] x = x := by
  have hx32 : x < 32768 := hx
  refine ⟨?_, ?_, ?_⟩
  · intro s t hs ht h
    rw [next_collision_key_iterate s x hx32, next_collision_key_iterate t x hx32] at h
    exact collisionStepZ_inj _ s t hs ht (ZMod.val_injective 32768 h)
  · intro y hy
    obtain ⟨t, hlt, hty⟩ := collisionStepZ_surj ((x : ℕ) : ZMod 32768) ((y : ℕ) : ZMod 32768)
    refine ⟨t, hlt, ?_⟩
    rw [next_collision_key_iterate t x hx32, hty, ZMod.val_natCast]
    exact Nat.mod_eq_of_lt hy
  · rw [show HASH_TABLE_SIZE = 32768 from rfl,
      next_collision_key_iterate 32768 x hx32,
      (collisionStepZ_periodic_iff 32768 _).mpr dvd_rfl, ZMod.val_natCast]
    exact Nat.mod_eq_of_lt hx32

/-- Witness for claim C3 at the concrete slot `0`. -/
theorem claim_C3_witness :
    (0 : ℕ) < HASH_TABLE_SIZE ∧
    ((∀ s t, s < HASH_TABLE_SIZE → t < HASH_TABLE_SIZE →
        next_collision_key^[s] 0 = next_collision_key^[t] 0 → s = t)
    ∧ (∀ y, y < HASH_TABLE_SIZE → ∃ t, t < HASH_TABLE_SIZE ∧ next_collision_key^[t] 0 = y)
    ∧ next_collision_key^[HASH_TABLE_SIZE] 0 = 0) :=
  ⟨by norm_num [HASH_TABLE_SIZE], claim_C3 0 (by norm_num [HASH_TABLE_SIZE])⟩

/-- Claim C9: evaluation of the insert macros on the two-element list `[0, 1]`.
`CAT_BDLL_INSERT_AFTER(0)` links the new node 2 for forward traversal, but
backward traversal from the tail skips it (the old successor's `prev` is never
rewritten), and `CAT_BDLL_INSERT_BEFORE(1)` / `CAT_FDLL_INSERT_BEFORE(1)`
leave the new node invisible to forward traversal (the old predecessor's
`next` is never rewritten), contradicting the claimed adjacency for a middle
insertion. -/
theorem claim_C9 :
    (fwdChain (bdllInsertAfter bdll01 2 0).heap 5 (bdllInsertAfter bdll01 2 0).head = [0, 2, 1]
      ∧ bwdChain (bdllInsertAfter bdll01 2 0).heap 5 (bdllInsertAfter bdll01 2 0).tail = [1, 0]
      ∧ ([1, 0] : List ℕ) ≠ [1, 2, 0])
    ∧ (fwdChain (bdllInsertBefore bdll01 2 1).heap 5 (bdllInsertBefore bdll01 2 1).head = [0, 1]
      ∧ ([0, 1] : List ℕ) ≠ [0, 2, 1])
    ∧ fwdChain (fdllInsertBefore fdll01 2 1).heap 5 (fdllInsertBefore fdll01 2 1).head = [0, 1] := by
  decide

/-- Claim C10: evaluation of the `empty()` accessors.  The source bodies read
`return _head != 0;`, so `empty()` reports `false` on a cleared (truly empty)
list and `true` on a one-element list — the opposite of the claim that
`empty()` is true iff the head pointer is null. -/
theorem claim_C10 :
    dlistForwardEmpty none = false ∧ dlistEmpty none none = false ∧ slistEmpty none = false
    ∧ dlistForwardEmpty (some 0) = true ∧ dlistEmpty (some 0) (some 0) = true
    ∧ slistEmpty (some 0) = true := by
  decide

/-- Claim C2: evaluation of the pre-connect receive path at a correct-length
S2C_ERROR packet carrying `ERR_SERVER_FULL` (= 0, the only error the enum in
the snapshot defines).  Because the handler discards every error code
`err ≤ ERR_NUM_CLIENT_ERRORS` — whatever value that unfinished enum constant
has — the client state is unchanged and no connect-fail upcall happens,
contradicting the claim that every correct-length S2C_ERROR causes a
`ConnectFail` with the reported code. -/
theorem claim_C2 (cfg : HsConfig) (st : HsClientState) :
    onReadNotConnected cfg st [S2C_ERROR, ERR_SERVER_FULL] = st := by
  simp [onReadNotConnected, S2C_COOKIE_LEN, S2C_ANSWER_LEN, S2C_ERROR_LEN, ANSWER_BYTES,
    S2C_COOKIE, S2C_ANSWER, S2C_ERROR, ERR_SERVER_FULL, Nat.zero_le]

/-- Claim C8: one handshake-loop tick behaves as specified.  If
`now - first_hello_post` (u32) has reached `CONNECT_TIMEOUT` the client fails
with the timeout error and stops; otherwise, if `now - last_hello_post` has
reached the current interval and the hello repost succeeds, the loop continues
with `last_hello_post = now` and the interval doubled (u32); otherwise the
state is unchanged and nothing is posted.  The loop starts with both
timestamps at `start_time` and the interval at the initial hello-post
interval. -/
theorem claim_C8 (connectTimeout initialInterval : ℕ) (postOk : Bool) (s : HelloState)
    (now start_time : ℕ) :
    (connectTimeout ≤ u32sub now s.first_hello_post →
      helloTick connectTimeout postOk s now = HelloTick.failTimeout)
    ∧ (u32sub now s.first_hello_post < connectTimeout →
        s.hello_post_interval ≤ u32sub now s.last_hello_post → postOk = true →
        helloTick connectTimeout postOk s now =
          HelloTick.tick ⟨s.first_hello_post, now, s.hello_post_interval * 2 % 2 ^ 32⟩ true)
    ∧ (u32sub now s.first_hello_post < connectTimeout →
        u32sub now s.last_hello_post < s.hello_post_interval →
        helloTick connectTimeout postOk s now = HelloTick.tick s false)
    ∧ (s.hello_post_interval < 2 ^ 31 →
        s.hello_post_interval * 2 % 2 ^ 32 = 2 * s.hello_post_interval)
    ∧ (helloInit initialInterval start_time).hello_post_interval = initialInterval
    ∧ (helloInit initialInterval start_time).first_hello_post = start_time
    ∧ (helloInit initialInterval start_time).last_hello_post = start_time := by
  refine ⟨?_, ?_, ?_, ?_, rfl, rfl, rfl⟩
  · intro h
    simp [helloTick, h]
  · intro h1 h2 h3
    simp [helloTick, not_le.mpr h1, h2, h3]
  · intro h1 h2
    simp [helloTick, not_le.mpr h1, not_le.mpr h2]
  · intro h
    omega

/-- Witness for claim C8: a concrete tick that times out. -/
theorem claim_C8_witness :
    (100 : ℕ) ≤ u32sub 200 50 ∧ helloTick 100 true ⟨50, 50, 5⟩ 200 = HelloTick.failTimeout :=
  ⟨by decide, (claim_C8 100 5 true ⟨50, 50, 5⟩ 200 0).1 (by decide)⟩

/-- A teardown call on an already-destroyed client is a no-op. -/
theorem teardownStep_frozen (t : ClientPost) (c : TeardownCall) (h : t.destroyed ≠ 0) :
    teardownStep t c = t := by
  cases c with
  | disc reason notify => simp [teardownStep, clientDisconnect, h]
  | fail err => simp [teardownStep, clientConnectFail, h]

/-- Any sequence of teardown calls on an already-destroyed client is a no-op. -/
theorem teardown_fold_frozen (calls : List TeardownCall) (t : ClientPost)
    (h : t.destroyed ≠ 0) : calls.foldl teardownStep t = t := by
  induction calls with
  | nil => rfl
  | cons c rest ih =>
    rw [List.foldl_cons, teardownStep_frozen t c h]
    exact ih

/-- The winning teardown call sets `_destroyed` to 1 and makes exactly its own
upcall. -/
theorem teardownStep_wins (s : ClientPost) (c : TeardownCall)
    (hs : s.destroyed = 0) (hu : s.upcalls = []) :
    (teardownStep s c).destroyed = 1 ∧ (teardownStep s c).upcalls = [upcallOfCall c] := by
  cases c with
  | disc reason notify => simp [teardownStep, clientDisconnect, hs, hu, upcallOfCall]
  | fail err => simp [teardownStep, clientConnectFail, hs, hu, upcallOfCall]

/-- Claim C5: `Disconnect` and `ConnectFail` are idempotent through the shared
one-shot `_destroyed` flag.  Starting from a live connection, any non-empty
sequence of `Disconnect`/`ConnectFail` calls performs exactly one upcall — the
one belonging to the first call, which wins the 0 to 1 transition — leaves
`_destroyed = 1`, and every call on an already-destroyed client is a no-op
that makes no upcall. -/
theorem claim_C5 (s : ClientPost) (c : TeardownCall) (calls : List TeardownCall)
    (t : ClientPost) (c2 : TeardownCall)
    (hs : s.destroyed = 0) (hu : s.upcalls = []) (ht : t.destroyed ≠ 0) :
    ((c :: calls).foldl teardownStep s).upcalls = [upcallOfCall c]
    ∧ ((c :: calls).foldl teardownStep s).destroyed = 1
    ∧ teardownStep t c2 = t := by
  obtain ⟨hd, hup⟩ := teardownStep_wins s c hs hu
  rw [List.foldl_cons, teardown_fold_frozen calls _ (by omega)]
  exact ⟨hup, hd, teardownStep_frozen t c2 ht⟩

/-- Witness for claim C5: a `Disconnect(3, notify)` racing a later
`ConnectFail(5)` on a live client, plus a no-op call on a destroyed one. -/
theorem claim_C5_witness :
    (clientPost0.destroyed = 0 ∧ clientPost0.upcalls = [] ∧ clientPost1.destroyed ≠ 0)
    ∧ (([TeardownCall.disc 3 true, TeardownCall.fail 5].foldl teardownStep clientPost0).upcalls
          = [upcallOfCall (TeardownCall.disc 3 true)]
        ∧ ([TeardownCall.disc 3 true, TeardownCall.fail 5].foldl teardownStep
            clientPost0).destroyed = 1
        ∧ teardownStep clientPost1 (TeardownCall.fail 9) = clientPost1) :=
  ⟨⟨rfl, rfl, by decide⟩,
    claim_C5 clientPost0 (TeardownCall.disc 3 true) [TeardownCall.fail 5] clientPost1
      (TeardownCall.fail 9) rfl rfl (by decide)⟩

/-- No branch of `Client::OnInternal` lowers `_max_payload_bytes`. -/
theorem onInternal_mono (cfg : IopConfig) (t : ClientPost) (n : ℕ) (d : List ℕ) :
    t.max_payload_bytes ≤ (onInternal cfg t n d).max_payload_bytes := by
  simp only [onInternal, clientDisconnect]
  split_ifs <;> simp
  omega

/-- Claim C4: the connected client's `_max_payload_bytes` is monotonically
non-decreasing.  On a correct-length MTU_SET message the value becomes the
carried value exactly when that is strictly greater than the current one; no
internal-message handler (MTU_SET, TIME_PONG, DISCO), nor any sequence of
them, ever decreases the field. -/
theorem claim_C4 (cfg : IopConfig) (st : ClientPost) (now : ℕ) (data : List ℕ)
    (hop : data.getD 0 0 = cfg.iopMtuSet) (hlen : data.length = cfg.lenMtuSet) :
    ((onInternal cfg st now data).max_payload_bytes =
      if st.max_payload_bytes < getLE16 data 1 then getLE16 data 1 else st.max_payload_bytes)
    ∧ (∀ (t : ClientPost) (n : ℕ) (d : List ℕ),
        t.max_payload_bytes ≤ (onInternal cfg t n d).max_payload_bytes)
    ∧ (∀ (t : ClientPost) (evs : List (ℕ × List ℕ)),
        t.max_payload_bytes ≤
          (evs.foldl (fun a e => onInternal cfg a e.1 e.2) t).max_payload_bytes) := by
    refine ⟨?_, onInternal_mono cfg, ?_⟩
    · simp only [onInternal]
      rw [if_pos hop, if_pos hlen]
      split_ifs <;> rfl
    · intro t evs
      induction evs generalizing t with
      | nil => exact le_refl _
      | cons e rest ih =>
        rw [List.foldl_cons]
        exact le_trans (onInternal_mono cfg t e.1 e.2) (ih _)

/-- Witness for claim C4: a concrete MTU_SET message carrying 1500 processed
on a client whose current maximum is 1400. -/
theorem claim_C4_witness :
    (([iopCfg0.iopMtuSet, 220, 5] : List ℕ).getD 0 0 = iopCfg0.iopMtuSet
        ∧ ([iopCfg0.iopMtuSet, 220, 5] : List ℕ).length = iopCfg0.lenMtuSet)
    ∧ ((onInternal iopCfg0 clientPost0 0 [iopCfg0.iopMtuSet, 220, 5]).max_payload_bytes =
        if clientPost0.max_payload_bytes < getLE16 [iopCfg0.iopMtuSet, 220, 5] 1 then
          getLE16 [iopCfg0.iopMtuSet, 220, 5] 1
        else clientPost0.max_payload_bytes)
    ∧ (∀ (t : ClientPost) (n : ℕ) (d : List ℕ),
        t.max_payload_bytes ≤ (onInternal iopCfg0 t n d).max_payload_bytes)
    ∧ (∀ (t : ClientPost) (evs : List (ℕ × List ℕ)),
        t.max_payload_bytes ≤
          (evs.foldl (fun a e => onInternal iopCfg0 a e.1 e.2) t).max_payload_bytes) := by
  refine ⟨⟨by decide, by decide⟩, ?_⟩
  exact claim_C4 iopCfg0 clientPost0 0 [iopCfg0.iopMtuSet, 220, 5] (by decide) (by decide)

/-- On a correct-length S2C_ANSWER packet, the pre-connect receive path
reduces to the port check followed by the two key-agreement steps. -/
theorem onReadNotConnected_answer (cfg : HsConfig) (st : HsClientState) (data : List ℕ)
    (hlen : data.length = S2C_ANSWER_LEN) (hop : data.getD 0 0 = S2C_ANSWER) :
    onReadNotConnected cfg st data =
      (if st.serverPort < getLE16 data 1 then
        match cfg.processAnswer (data.drop 3) with
        | some key_hash =>
          match cfg.keyEncryption key_hash with
          | some key =>
            { st with
              connected := true
              serverPort := getLE16 data 1
              aeadKey := some key
              events := st.events ++ [HsEvent.onConnect] }
          | none => st
        | none => st
      else st) := by
  have hne : ¬ (data.length = S2C_COOKIE_LEN ∧ data.getD 0 0 = S2C_COOKIE) := by
    rw [hlen]
    simp [S2C_ANSWER_LEN, S2C_COOKIE_LEN, ANSWER_BYTES]
  simp only [onReadNotConnected]
  rw [if_neg hne, if_pos ⟨hlen, hop⟩]

/-- Claim C1: for every correct-length S2C_ANSWER packet received before the
client is connected, the client transitions to Connected exactly when the
advertised session port is strictly greater than the bootstrap server port
and the key-agreement answer validates (including AEAD key derivation); on
that transition it stores the derived AEAD key and latches the server address
port to the advertised session port, firing `OnConnect`; on any failed
validation or port check it stays unconnected with its state unchanged. -/
theorem claim_C1 (cfg : HsConfig) (st : HsClientState) (data : List ℕ)
    (hconn : st.connected = false)
    (hlen : data.length = S2C_ANSWER_LEN) (hop : data.getD 0 0 = S2C_ANSWER) :
    ((onReadNotConnected cfg st data).connected = true ↔
      (st.serverPort < getLE16 data 1 ∧ ∃ key_hash key,
        cfg.processAnswer (data.drop 3) = some key_hash
          ∧ cfg.keyEncryption key_hash = some key))
    ∧ (∀ key_hash key, st.serverPort < getLE16 data 1 →
        cfg.processAnswer (data.drop 3) = some key_hash →
        cfg.keyEncryption key_hash = some key →
        onReadNotConnected cfg st data =
          { st with
            connected := true
            serverPort := getLE16 data 1
            aeadKey := some key
            events := st.events ++ [HsEvent.onConnect] })
    ∧ ((onReadNotConnected cfg st data).connected = false →
        onReadNotConnected cfg st data = st) := by
  rw [onReadNotConnected_answer cfg st data hlen hop]
  by_cases hport : st.serverPort < getLE16 data 1
  · rw [if_pos hport]
    refine ⟨?_, ?_, ?_⟩
    · rcases hpa : cfg.processAnswer (data.drop 3) with _ | key_hash
      · simp [hconn, hpa]
      · rcases hke : cfg.keyEncryption key_hash with _ | key
        · simp [hconn, hpa, hke]
        · simp [hpa, hke, hport]
    · intro kh k _ hpa2 hke2
      rw [hpa2]
      simp [hke2]
    · intro hfalse
      rcases hpa : cfg.processAnswer (data.drop 3) with _ | key_hash
      · simp [hpa]
      · rcases hke : cfg.keyEncryption key_hash with _ | key
        · simp [hpa, hke]
        · rw [hpa] at hfalse
          simp [hke] at hfalse
  · rw [if_neg hport]
    refine ⟨by simp [hconn, hport], ?_, fun _ => rfl⟩
    intro kh k hport2 _ _
    exact absurd hport2 hport

/-- Witness for claim C1: the concrete answer packet `answerPkt0` advertising
port 5001 processed by the unconnected client `hsSt0` (bootstrap port 5000)
under the always-valid key agreement `hsCfg0`. -/
theorem claim_C1_witness :
    (hsSt0.connected = false ∧ answerPkt0.length = S2C_ANSWER_LEN
      ∧ answerPkt0.getD 0 0 = S2C_ANSWER)
    ∧ (((onReadNotConnected hsCfg0 hsSt0 answerPkt0).connected = true ↔
        (hsSt0.serverPort < getLE16 answerPkt0 1 ∧ ∃ key_hash key,
          hsCfg0.processAnswer (answerPkt0.drop 3) = some key_hash
            ∧ hsCfg0.keyEncryption key_hash = some key))
      ∧ (∀ key_hash key, hsSt0.serverPort < getLE16 answerPkt0 1 →
          hsCfg0.processAnswer (answerPkt0.drop 3) = some key_hash →
          hsCfg0.keyEncryption key_hash = some key →
          onReadNotConnected hsCfg0 hsSt0 answerPkt0 =
            { hsSt0 with
              connected := true
              serverPort := getLE16 answerPkt0 1
              aeadKey := some key
              events := hsSt0.events ++ [HsEvent.onConnect] })
      ∧ ((onReadNotConnected hsCfg0 hsSt0 answerPkt0).connected = false →
          onReadNotConnected hsCfg0 hsSt0 answerPkt0 = hsSt0)) :=
  ⟨⟨rfl, by simp [answerPkt0, S2C_ANSWER_LEN, ANSWER_BYTES], rfl⟩,
    claim_C1 hsCfg0 hsSt0 answerPkt0 rfl
      (by simp [answerPkt0, S2C_ANSWER_LEN, ANSWER_BYTES]) rfl⟩

/-- Claim C6 counterexample: sixteen samples taken at the same `when` (so the
regression denominator is 0), fifteen with delta 0 and the newest with delta
100.  The selected lowest-RTT subset is the first four samples, whose deltas
are all 0 with mean 0, yet the published `_ts_B1` is 100 — the newest delta,
not the subset mean — refuting the claim at this input. -/
theorem claim_C6_counterexample :
    b0Denominator c6Samples (baseTimeOf 100) ((c6Best.length : ℕ) : ℤ)
        (sumWhenBest c6Samples (baseTimeOf 100) c6Best) c6Best ≤ 0
    ∧ (updateTimeSynch c6State 100 50 100).ts_B1 = 100
    ∧ avgDelta c6Samples c6Best = 0
    ∧ Int.tdiv (sumDeltaBest c6Samples c6Best) ((c6Best.length : ℕ) : ℤ) = 0
    ∧ ((100 : ℤ) ≠ 0) := by
  refine ⟨by decide, ?_, by decide, by decide, by decide⟩
  decide

/-- Claim C6 (amended): in the clock-drift regression of `UpdateTimeSynch`,
whenever the drift block is reached (at least `MIN_DRIFT_SAMPLES` selected
samples) and the computed denominator `Σ(w_i − w̄)²` is ≤ 0, the published
state becomes `B0 = 0` and `B1` equal to the delta of the newest sample (the
`delta` argument of the call) — not the mean of the selected subset. -/
theorem claim_C6_amended (st : TimeSyncState) (pong_time rtt : ℕ) (delta : ℤ)
    (h1 : ¬ (insertSample st pong_time rtt delta).ts_sample_count ≤ 1)
    (h2 : MIN_DRIFT_SAMPLES ≤
      (bestSelect (insertSample st pong_time rtt delta).ts_samples
        (insertSample st pong_time rtt delta).ts_sample_count).length)
    (h3 : b0Denominator (insertSample st pong_time rtt delta).ts_samples (baseTimeOf pong_time)
        (((bestSelect (insertSample st pong_time rtt delta).ts_samples
            (insertSample st pong_time rtt delta).ts_sample_count).length : ℕ) : ℤ)
        (sumWhenBest (insertSample st pong_time rtt delta).ts_samples (baseTimeOf pong_time)
          (bestSelect (insertSample st pong_time rtt delta).ts_samples
            (insertSample st pong_time rtt delta).ts_sample_count))
        (bestSelect (insertSample st pong_time rtt delta).ts_samples
          (insertSample st pong_time rtt delta).ts_sample_count) ≤ 0) :
    (updateTimeSynch st pong_time rtt delta).ts_B0 = 0
    ∧ (updateTimeSynch st pong_time rtt delta).ts_B1 = delta := by
  simp only [updateTimeSynch]
  rw [if_neg h1, if_neg (not_lt.mpr h2), if_pos h3]
  exact ⟨rfl, rfl⟩

/-- Witness for the amended claim C6 at the concrete counterexample input. -/
theorem claim_C6_amended_witness :
    ((¬ (insertSample c6State 100 50 100).ts_sample_count ≤ 1)
      ∧ MIN_DRIFT_SAMPLES ≤
          (bestSelect (insertSample c6State 100 50 100).ts_samples
            (insertSample c6State 100 50 100).ts_sample_count).length
      ∧ b0Denominator (insertSample c6State 100 50 100).ts_samples (baseTimeOf 100)
          (((bestSelect (insertSample c6State 100 50 100).ts_samples
              (insertSample c6State 100 50 100).ts_sample_count).length : ℕ) : ℤ)
          (sumWhenBest (insertSample c6State 100 50 100).ts_samples (baseTimeOf 100)
            (bestSelect (insertSample c6State 100 50 100).ts_samples
              (insertSample c6State 100 50 100).ts_sample_count))
          (bestSelect (insertSample c6State 100 50 100).ts_samples
            (insertSample c6State 100 50 100).ts_sample_count) ≤ 0)
    ∧ ((updateTimeSynch c6State 100 50 100).ts_B0 = 0
      ∧ (updateTimeSynch c6State 100 50 100).ts_B1 = 100) :=
  ⟨⟨by decide, by decide, by decide⟩,
    claim_C6_amended c6State 100 50 100 (by decide) (by decide) (by decide)⟩

/-- Folding `+ f i` over a list on which `f` is constantly `d` adds
`d * length`. -/
theorem foldl_add_const (f : ℕ → ℤ) (d : ℤ) :
    ∀ (l : List ℕ) (acc : ℤ), (∀ i ∈ l, f i = d) →
      l.foldl (fun a i => a + f i) acc = acc + d * l.length := by
  intro l
  induction l with
  | nil => intro acc _; simp
  | cons i rest ih =>
    intro acc h
    rw [List.foldl_cons, ih _ (fun j hj => h j (List.mem_cons_of_mem _ hj)),
      h i (List.mem_cons_self _ _), List.length_cons]
    push_cast
    ring

/-- Folding `+ g i` over a list on which `g` vanishes is the identity. -/
theorem foldl_add_zeros (g : ℕ → ℤ) :
    ∀ (l : List ℕ) (acc : ℤ), (∀ i ∈ l, g i = 0) →
      l.foldl (fun a i => a + g i) acc = acc := by
  intro l
  induction l with
  | nil => intro acc _; rfl
  | cons i rest ih =>
    intro acc h
    rw [List.foldl_cons, h i (List.mem_cons_self _ _), add_zero,
      ih _ (fun j hj => h j (List.mem_cons_of_mem _ hj))]

/-- Every index placed in `BestSamples` by the first selection loop satisfies
any property that holds of the initial entries and of the loop range. -/
theorem selPhase1_foldl_mem (samples : ℕ → TimesPingSample) (P : ℕ → Prop) :
    ∀ (l : List ℕ) (st : BestSel), (∀ x ∈ st.best, P x) → (∀ ii ∈ l, P ii) →
      ∀ x ∈ (l.foldl (selPhase1Step samples) st).best, P x := by
  intro l
  induction l with
  | nil => intro st h _ x hx; exact h x hx
  | cons ii rest ih =>
    intro st hst hl x hx
    rw [List.foldl_cons] at hx
    refine ih _ ?_ (fun j hj => hl j (List.mem_cons_of_mem _ hj)) x hx
    intro y hy
    have hbest : (selPhase1Step samples st ii).best = st.best ++ [ii] := by
      simp only [selPhase1Step]
      split_ifs <;> rfl
    rw [hbest, List.mem_append, List.mem_singleton] at hy
    rcases hy with hy | rfl
    · exact hst y hy
    · exact hl y (List.mem_cons_self _ _)

/-- Every index placed in `BestSamples` by the second selection loop satisfies
any property that holds of the incoming entries and of the loop range. -/
theorem selPhase2_foldl_mem (samples : ℕ → TimesPingSample) (P : ℕ → Prop) :
    ∀ (l : List ℕ) (st : BestSel), (∀ x ∈ st.best, P x) → (∀ ii ∈ l, P ii) →
      ∀ x ∈ (l.foldl (selPhase2Step samples) st).best, P x := by
  intro l
  induction l with
  | nil => intro st h _ x hx; exact h x hx
  | cons ii rest ih =>
    intro st hst hl x hx
    rw [List.foldl_cons] at hx
    refine ih _ ?_ (fun j hj => hl j (List.mem_cons_of_mem _ hj)) x hx
    intro y hy
    simp only [selPhase2Step] at hy
    by_cases hr : (samples ii).rtt < st.highRtt
    · rw [if_pos hr] at hy
      simp only at hy
      rcases List.mem_or_eq_of_mem_set hy with hy | rfl
      · exact hst y hy
      · exact hl y (List.mem_cons_self _ _)
    · rw [if_neg hr] at hy
      exact hst y hy

/-- Every index selected by `bestSelect` refers to a live sample
(`index < count`), provided at least one sample exists. -/
theorem bestSelect_mem_lt (samples : ℕ → TimesPingSample) (count : ℕ) (hc : 1 ≤ count) :
    ∀ x ∈ bestSelect samples count, x < count := by
  intro x hx
  simp only [bestSelect, selPhase2, selPhase1] at hx
  refine selPhase2_foldl_mem samples (· < count) _ _ ?_ ?_ x hx
  · refine selPhase1_foldl_mem samples (· < count) _ _ ?_ ?_
    · intro y hy
      rw [List.mem_singleton] at hy
      omega
    · intro ii hii
      rw [List.mem_range'] at hii
      obtain ⟨k, hk, rfl⟩ := hii
      have := min_le_left count (max (count / 4) MIN_TS_SAMPLES)
      omega
  · intro ii hii
    rw [List.mem_range'] at hii
    obtain ⟨k, hk, rfl⟩ := hii
    have := min_le_left count (max (count / 4) MIN_TS_SAMPLES)
    omega

/-- Truncation toward zero is the identity on integers. -/
theorem truncQ_intCast (d : ℤ) : truncQ ((d : ℤ) : ℚ) = d := by
  unfold truncQ
  split_ifs <;> simp

/-- The `s32` reinterpretation is the identity on in-range values. -/
theorem toS32_of_bounds (x : ℤ) (h1 : -(2 ^ 31) ≤ x) (h2 : x < 2 ^ 31) : toS32 x = x := by
  unfold toS32
  omega

/-- Claim C7: for every clock-sync calculation with at least
`MIN_DRIFT_SAMPLES` selected samples, if the selected samples' `when` values
(relative to the rollover base, as the code uses them) are strictly monotonic
and every sample's delta equals the same `s32` constant `delta` (the current
call's delta included), then the published drift slope `B0` is exactly 0 and
the published offset `B1` equals `delta`. -/
theorem claim_C7 (st : TimeSyncState) (pong_time rtt : ℕ) (delta : ℤ)
    (hwf : st.ts_sample_count ≤ MAX_TS_SAMPLES)
    (hlo : -(2 ^ 31) ≤ delta) (hhi : delta < 2 ^ 31)
    (h1 : ¬ (insertSample st pong_time rtt delta).ts_sample_count ≤ 1)
    (h2 : MIN_DRIFT_SAMPLES ≤
      (bestSelect (insertSample st pong_time rtt delta).ts_samples
        (insertSample st pong_time rtt delta).ts_sample_count).length)
    (h3 : ∀ i, i < MAX_TS_SAMPLES →
      ((insertSample st pong_time rtt delta).ts_samples i).delta = delta)
    (_h4 : strictIncr
      ((bestSelect (insertSample st pong_time rtt delta).ts_samples
          (insertSample st pong_time rtt delta).ts_sample_count).map
        (fun i => u32sub ((insertSample st pong_time rtt delta).ts_samples i).whenv
          (baseTimeOf pong_time))) = true) :
    (updateTimeSynch st pong_time rtt delta).ts_B0 = 0
    ∧ (updateTimeSynch st pong_time rtt delta).ts_B1 = delta := by
  have hc1 : 1 ≤ (insertSample st pong_time rtt delta).ts_sample_count := by omega
  have hC64 : (insertSample st pong_time rtt delta).ts_sample_count ≤ MAX_TS_SAMPLES := by
    simp only [insertSample]
    split_ifs with h
    · omega
    · exact hwf
  have hmem := bestSelect_mem_lt (insertSample st pong_time rtt delta).ts_samples
    (insertSample st pong_time rtt delta).ts_sample_count hc1
  have hdeltas : ∀ i ∈ bestSelect (insertSample st pong_time rtt delta).ts_samples
      (insertSample st pong_time rtt delta).ts_sample_count,
      ((insertSample st pong_time rtt delta).ts_samples i).delta = delta :=
    fun i hi => h3 i (lt_of_lt_of_le (hmem i hi) hC64)
  have hsumD : sumDeltaBest (insertSample st pong_time rtt delta).ts_samples
      (bestSelect (insertSample st pong_time rtt delta).ts_samples
        (insertSample st pong_time rtt delta).ts_sample_count) =
      delta * ((bestSelect (insertSample st pong_time rtt delta).ts_samples
        (insertSample st pong_time rtt delta).ts_sample_count).length : ℤ) := by
    unfold sumDeltaBest
    rw [foldl_add_const _ delta _ _ hdeltas, zero_add]
  have hnum : b0Numerator (insertSample st pong_time rtt delta).ts_samples
      (baseTimeOf pong_time)
      ((bestSelect (insertSample st pong_time rtt delta).ts_samples
        (insertSample st pong_time rtt delta).ts_sample_count).length : ℤ)
      (sumWhenBest (insertSample st pong_time rtt delta).ts_samples (baseTimeOf pong_time)
        (bestSelect (insertSample st pong_time rtt delta).ts_samples
          (insertSample st pong_time rtt delta).ts_sample_count))
      (sumDeltaBest (insertSample st pong_time rtt delta).ts_samples
        (bestSelect (insertSample st pong_time rtt delta).ts_samples
          (insertSample st pong_time rtt delta).ts_sample_count))
      (bestSelect (insertSample st pong_time rtt delta).ts_samples
        (insertSample st pong_time rtt delta).ts_sample_count) = 0 := by
    unfold b0Numerator
    refine foldl_add_zeros _ _ _ ?_
    intro i hi
    have hdt : deltaTermOf (insertSample st pong_time rtt delta).ts_samples
        ((bestSelect (insertSample st pong_time rtt delta).ts_samples
          (insertSample st pong_time rtt delta).ts_sample_count).length : ℤ)
        (sumDeltaBest (insertSample st pong_time rtt delta).ts_samples
          (bestSelect (insertSample st pong_time rtt delta).ts_samples
            (insertSample st pong_time rtt delta).ts_sample_count)) i = 0 := by
      unfold deltaTermOf
      rw [hdeltas i hi, hsumD]
      ring
    rw [hdt, mul_zero]
  have hlen0 : ((bestSelect (insertSample st pong_time rtt delta).ts_samples
      (insertSample st pong_time rtt delta).ts_sample_count).length : ℚ) ≠ 0 := by
    have h4' : MIN_DRIFT_SAMPLES = 4 := rfl
    rw [Nat.cast_ne_zero]
    omega
  simp only [updateTimeSynch]
  rw [if_neg h1, if_neg (not_lt.mpr h2)]
  by_cases hden : b0Denominator (insertSample st pong_time rtt delta).ts_samples
      (baseTimeOf pong_time)
      ((bestSelect (insertSample st pong_time rtt delta).ts_samples
        (insertSample st pong_time rtt delta).ts_sample_count).length : ℤ)
      (sumWhenBest (insertSample st pong_time rtt delta).ts_samples (baseTimeOf pong_time)
        (bestSelect (insertSample st pong_time rtt delta).ts_samples
          (insertSample st pong_time rtt delta).ts_sample_count))
      (bestSelect (insertSample st pong_time rtt delta).ts_samples
        (insertSample st pong_time rtt delta).ts_sample_count) ≤ 0
  · rw [if_pos hden]
    exact ⟨rfl, rfl⟩
  · rw [if_neg hden]
    constructor
    · simp only [hnum, Int.cast_zero, zero_div]
    · simp only [hnum, Int.cast_zero, zero_div, zero_mul, sub_zero]
      rw [hsumD]
      push_cast
      rw [mul_div_cancel_right₀ _ hlen0]
      rw [truncQ_intCast]
      exact toS32_of_bounds delta hlo hhi

set_option maxRecDepth 100000 in
/-- Witness for claim C7: a full ring of 64 samples with constant delta 7 and
strictly increasing `when` offsets; the published state is `B0 = 0`,
`B1 = 7`. -/
theorem claim_C7_witness :
    (c7State.ts_sample_count ≤ MAX_TS_SAMPLES
      ∧ -(2 ^ 31) ≤ (7 : ℤ) ∧ (7 : ℤ) < 2 ^ 31
      ∧ (¬ (insertSample c7State 500 50 7).ts_sample_count ≤ 1)
      ∧ MIN_DRIFT_SAMPLES ≤
          (bestSelect (insertSample c7State 500 50 7).ts_samples
            (insertSample c7State 500 50 7).ts_sample_count).length
      ∧ (∀ i, i < MAX_TS_SAMPLES →
          ((insertSample c7State 500 50 7).ts_samples i).delta = 7)
      ∧ strictIncr
          ((bestSelect (insertSample c7State 500 50 7).ts_samples
              (insertSample c7State 500 50 7).ts_sample_count).map
            (fun i => u32sub ((insertSample c7State 500 50 7).ts_samples i).whenv
              (baseTimeOf 500))) = true)
    ∧ ((updateTimeSynch c7State 500 50 7).ts_B0 = 0
      ∧ (updateTimeSynch c7State 500 50 7).ts_B1 = 7) :=
  ⟨⟨by decide, by decide, by decide, by decide, by decide, by decide, by decide⟩,
    claim_C7 c7State 500 50 7 (by decide) (by decide) (by decide) (by decide) (by decide)
      (by decide) (by decide)⟩
